import Mathlib

/-!
Shallow embedding of the tic-tac-toe server's move-resolution engine and
record-store handlers, translated from `src/server/src/schema.ts`,
`src/server/src/handlers/make_move.ts`, the reset / get / create handlers,
and the tRPC router wiring that validates input with `makeMoveInputSchema`
before invoking the `makeMove` handler.

Modelling conventions:
- TypeScript `null` cells become `Option Player` with `none` for empty.
- TypeScript array indexing `board[p]` (which yields `undefined` out of
  bounds) becomes `tsGet`, returning `Option Cell` with `none` for the
  out-of-bounds `undefined`.
- The database table becomes a list of `Game` rows; `db.select().where(eq id)`
  becomes taking the rows whose `id` matches, `db.update().where(eq id)`
  becomes replacing every matching row.
- `new Date()` timestamps become an explicit `now : Nat` parameter.
-/

namespace TicTacToe

/-- `playerSchema = z.enum(['X','O'])` from `schema.ts`. -/
inductive Player where
  | X
  | O
deriving DecidableEq, Repr

/-- A board cell: `z.union([playerSchema, z.null()])` — empty is `none`. -/
abbrev Cell := Option Player

/-- `boardSchema`: array of cells (the schema fixes length 9 at the boundary). -/
abbrev Board := List Cell

/-- `gameStatusSchema = z.enum(['waiting','in_progress','completed'])`. -/
inductive GameStatus where
  | waiting
  | in_progress
  | completed
deriving DecidableEq, Repr

/-- `gameResultSchema = z.enum(['X_wins','O_wins','draw','ongoing'])`. -/
inductive GameResult where
  | X_wins
  | O_wins
  | draw
  | ongoing
deriving DecidableEq, Repr

/-- The `games` table row / `gameSchema` object. Timestamps are abstract `Nat`s. -/
structure Game where
  id : Nat
  board : Board
  current_player : Player
  status : GameStatus
  result : GameResult
  winner : Option Player
  created_at : Nat
  updated_at : Nat
deriving DecidableEq, Repr

/-- The error taxonomy raised by the handlers and the input-validation layer. -/
inductive MoveError where
  | NotFound (gid : Nat)
  | GameAlreadyCompleted
  | GameNotStarted
  | WrongTurn (requested current : Player)
  | PositionOutOfRange
  | PositionOccupied (pos : Int)
deriving DecidableEq, Repr

/-- `makeMoveInputSchema`'s parsed shape `{game_id, position, player}`.
`position` is an `Int` so out-of-range requests are representable. -/
structure MakeMoveInput where
  game_id : Nat
  position : Int
  player : Player
deriving DecidableEq, Repr

/-- The `games` table: a list of rows. -/
abbrev Store := List Game

/-- `db.select().from(gamesTable).where(eq(gamesTable.id, gid))` followed by
taking `games[0]` when non-empty: the first row whose id matches. -/
def storeGet (store : Store) (gid : Nat) : Option Game :=
  store.find? fun g => g.id == gid

/-- `db.update(gamesTable).set(...).where(eq(gamesTable.id, gid))`:
every row whose id matches is replaced by the updated row. -/
def storePut (store : Store) (gid : Nat) (g : Game) : Store :=
  store.map fun r => if r.id = gid then g else r

/-- TypeScript indexing `board[p]`: `none` models the `undefined` produced by
a negative or too-large index, `some c` the stored cell. -/
def tsGet (b : Board) (p : Int) : Option Cell :=
  if 0 ≤ p then b.get? p.toNat else none

/-- The `winPatterns` array of `checkWinCondition` in `make_move.ts`:
3 rows, 3 columns, 2 diagonals. -/
def winPatterns : List (List Nat) :=
  [[0, 1, 2], [3, 4, 5], [6, 7, 8],
   [0, 3, 6], [1, 4, 7], [2, 5, 8],
   [0, 4, 8], [2, 4, 6]]

/-- `checkWinCondition(board, player)`: some pattern has
`board[position] === player` at each of its positions. -/
def checkWinCondition (board : Board) (player : Player) : Bool :=
  winPatterns.any fun pattern =>
    pattern.all fun position => board.get? position == some (some player)

/-- `isBoardFull(board)`: `board.every(cell => cell !== null)`. -/
def isBoardFull (board : Board) : Bool :=
  board.all fun cell => cell ≠ none

/-- `determineGameResult(board, currentPlayer)` from `make_move.ts`. -/
def determineGameResult (board : Board) (currentPlayer : Player) : GameResult :=
  if checkWinCondition board currentPlayer then
    if currentPlayer = Player.X then GameResult.X_wins else GameResult.O_wins
  else if isBoardFull board then
    GameResult.draw
  else
    GameResult.ongoing

/-- The updated row built in steps 5–8 of the `makeMove` handler: copy the
board, place the mark, classify, pick next player / status / winner, refresh
`updated_at`. -/
def updatedGame (game : Game) (input : MakeMoveInput) (now : Nat) : Game :=
  let newBoard := game.board.set input.position.toNat (some input.player)
  let gameResult := determineGameResult newBoard input.player
  let nextPlayer : Player := if input.player = Player.X then Player.O else Player.X
  let gameCompleted : Bool := gameResult ≠ GameResult.ongoing
  let winner : Option Player :=
    if gameResult = GameResult.X_wins then some Player.X
    else if gameResult = GameResult.O_wins then some Player.O
    else none
  { game with
      board := newBoard
      current_player := if gameCompleted then input.player else nextPlayer
      status := if gameCompleted then GameStatus.completed else GameStatus.in_progress
      result := gameResult
      winner := winner
      updated_at := now }

/-- The `makeMove` handler from `make_move.ts`. Returns the response
(updated row, or the thrown error) together with the table after the call;
the table is only written in the success branch, mirroring that `db.update`
runs only after all validations pass. The occupied check is the source's
`board[input.position] !== null`, so an out-of-bounds index (`undefined`)
also takes the occupied branch. -/
def makeMove (store : Store) (input : MakeMoveInput) (now : Nat) :
    Except MoveError Game × Store :=
  match storeGet store input.game_id with
  | none => (Except.error (MoveError.NotFound input.game_id), store)
  | some game =>
    if game.status = GameStatus.completed then
      (Except.error MoveError.GameAlreadyCompleted, store)
    else if game.status = GameStatus.waiting then
      (Except.error MoveError.GameNotStarted, store)
    else if game.current_player ≠ input.player then
      (Except.error (MoveError.WrongTurn input.player game.current_player), store)
    else if tsGet game.board input.position ≠ some none then
      (Except.error (MoveError.PositionOccupied input.position), store)
    else
      let g := updatedGame game input now
      (Except.ok g, storePut store input.game_id g)

/-- `makeMoveInputSchema`'s constraint on the move payload:
`position: z.number().int().min(0).max(8)` (int-ness is inherent here). -/
def moveInputInRange (input : MakeMoveInput) : Bool :=
  0 ≤ input.position && input.position ≤ 8

/-- The full `makeMove` request path as wired in the tRPC router:
the input is parsed against `makeMoveInputSchema` first, which rejects an
out-of-range position before the handler ever runs. -/
def resolveMove (store : Store) (input : MakeMoveInput) (now : Nat) :
    Except MoveError Game × Store :=
  if moveInputInRange input then makeMove store input now
  else (Except.error MoveError.PositionOutOfRange, store)

/-- `Array(9).fill(null)`. -/
def emptyBoard : Board := List.replicate 9 none

/-- The row inserted by the `createGame` handler: empty board, X starts,
`in_progress`, `ongoing`, no winner; id and timestamps come from the
database (`serial` / `defaultNow`), passed here as parameters. -/
def initialGame (newId : Nat) (now : Nat) : Game :=
  { id := newId
    board := emptyBoard
    current_player := Player.X
    status := GameStatus.in_progress
    result := GameResult.ongoing
    winner := none
    created_at := now
    updated_at := now }

/-- The `createGame` handler: insert the initial row, return it. -/
def createGame (store : Store) (newId : Nat) (now : Nat) : Game × Store :=
  let g := initialGame newId now
  (g, store ++ [g])

/-- The row written by the `resetGame` handler's `db.update(...).set({...})`:
empty board, X to move, `in_progress`, `ongoing`, no winner, fresh
`updated_at`; `id` and `created_at` are not in the set-clause and keep their
stored values. -/
def resetRecord (game : Game) (now : Nat) : Game :=
  { game with
      board := emptyBoard
      current_player := Player.X
      status := GameStatus.in_progress
      result := GameResult.ongoing
      winner := none
      updated_at := now }

/-- The `resetGame` handler: verify the game exists, then reset it. -/
def resetGame (store : Store) (gid : Nat) (now : Nat) :
    Except MoveError Game × Store :=
  match storeGet store gid with
  | none => (Except.error (MoveError.NotFound gid), store)
  | some game =>
    let g := resetRecord game now
    (Except.ok g, storePut store gid g)

/-- The `getGame` handler: `db.select().where(eq(id))`, return `null` when no
row matches, otherwise the first matching row. -/
def getGame (store : Store) (gid : Nat) : Option Game :=
  match store.filter (fun g => g.id == gid) with
  | [] => none
  | game :: _ => some game

/-! ### Spec-side outcome classification

These definitions follow the specification's words (for the refinement
claim about the computed outcome), to be compared with the source-derived
`determineGameResult`. -/

/-- The 8 fixed triples named by the spec: 3 rows, 3 columns, 2 diagonals. -/
def specTriples : List (List Nat) :=
  [[0, 1, 2], [3, 4, 5], [6, 7, 8],
   [0, 3, 6], [1, 4, 7], [2, 5, 8],
   [0, 4, 8], [2, 4, 6]]

/-- Spec wording: some fixed triple has all three cells equal to the mover's
mark. -/
def specHasWinningTriple (b : Board) (mover : Player) : Bool :=
  specTriples.any fun t => t.all fun i => b.get? i == some (some mover)

/-- A fetched cell is non-empty: it exists and holds a mark. -/
def cellNonEmpty : Option Cell → Bool
  | some (some _) => true
  | _ => false

/-- Spec wording: every one of the 9 cells of the board is non-empty. -/
def specAllNineFilled (b : Board) : Bool :=
  (List.range 9).all fun i => cellNonEmpty (b.get? i)

/-- The mover's win. -/
def moverWin : Player → GameResult
  | Player.X => GameResult.X_wins
  | Player.O => GameResult.O_wins

/-- The mover other than the given one. -/
def otherPlayer : Player → Player
  | Player.X => Player.O
  | Player.O => Player.X

/-- The spec's outcome classification: the mover's win iff some fixed triple
is all the mover's mark; otherwise DRAW iff all 9 cells are non-empty;
otherwise ONGOING. -/
def specOutcome (b : Board) (mover : Player) : GameResult :=
  if specHasWinningTriple b mover then moverWin mover
  else if specAllNineFilled b then GameResult.draw
  else GameResult.ongoing

/-- The record-level invariant asserted by the spec: `winner` is present iff
the outcome is a win, naming the corresponding mover, and the status is
`completed` iff the outcome is not `ongoing`. -/
def recordInvariant (g : Game) : Prop :=
  (g.winner = some Player.X ↔ g.result = GameResult.X_wins) ∧
  (g.winner = some Player.O ↔ g.result = GameResult.O_wins) ∧
  (g.status = GameStatus.completed ↔ g.result ≠ GameResult.ongoing)

instance (g : Game) : Decidable (recordInvariant g) := by
  unfold recordInvariant
  infer_instance

/-! ### Sample records used by witnesses and counterexamples -/

/-- A fresh in-progress game with an empty board. -/
def inProgressSample : Game :=
  { id := 1
    board := emptyBoard
    current_player := Player.X
    status := GameStatus.in_progress
    result := GameResult.ongoing
    winner := none
    created_at := 0
    updated_at := 0 }

/-- A completed game (X won the top row). -/
def completedSample : Game :=
  { id := 1
    board := [some Player.X, some Player.X, some Player.X,
              some Player.O, some Player.O, none, none, none, none]
    current_player := Player.X
    status := GameStatus.completed
    result := GameResult.X_wins
    winner := some Player.X
    created_at := 0
    updated_at := 0 }

/-- X plays the centre of game 1. -/
def sampleMove : MakeMoveInput := { game_id := 1, position := 4, player := Player.X }

/-- The record produced by `sampleMove` on `inProgressSample` at time 7. -/
def movedSample : Game := updatedGame inProgressSample sampleMove 7

/-! ### Helper lemmas -/

/-- A board of length 9 is a literal 9-element list. -/
lemma board_exists_nine (b : Board) (h : b.length = 9) :
    ∃ c0 c1 c2 c3 c4 c5 c6 c7 c8 : Cell,
      b = [c0, c1, c2, c3, c4, c5, c6, c7, c8] := by
  rcases b with _ | ⟨c0, _ | ⟨c1, _ | ⟨c2, _ | ⟨c3, _ | ⟨c4, _ | ⟨c5,
    _ | ⟨c6, _ | ⟨c7, _ | ⟨c8, _ | ⟨c9, b⟩⟩⟩⟩⟩⟩⟩⟩⟩⟩ <;> simp at h
  exact ⟨c0, c1, c2, c3, c4, c5, c6, c7, c8, rfl⟩

/-- The code's cell test `cell !== null` agrees with the spec's
"cell is non-empty" on a present cell. -/
lemma decide_ne_none_eq_cellNonEmpty (c : Cell) :
    decide (¬c = none) = cellNonEmpty (some c) := by
  cases c <;> rfl

/-- On a 9-cell board the code's fullness test agrees with the spec's
"all 9 cells non-empty". -/
lemma isBoardFull_eq_specAllNineFilled (b : Board) (h : b.length = 9) :
    isBoardFull b = specAllNineFilled b := by
  obtain ⟨c0, c1, c2, c3, c4, c5, c6, c7, c8, rfl⟩ := board_exists_nine b h
  have h9 : List.range 9 = [0, 1, 2, 3, 4, 5, 6, 7, 8] := rfl
  simp only [isBoardFull, specAllNineFilled, h9, List.all_cons, List.all_nil,
    ne_eq, decide_ne_none_eq_cellNonEmpty]
  rfl

/-- The code's winning-pattern scan is the spec's triple scan. -/
lemma checkWinCondition_eq_specHasWinningTriple (b : Board) (m : Player) :
    checkWinCondition b m = specHasWinningTriple b m := rfl

/-- On a 9-cell board the code's outcome classifier agrees with the spec's. -/
lemma determineGameResult_eq_specOutcome (b : Board) (m : Player)
    (h : b.length = 9) :
    determineGameResult b m = specOutcome b m := by
  unfold determineGameResult specOutcome
  rw [checkWinCondition_eq_specHasWinningTriple,
    isBoardFull_eq_specAllNineFilled b h]
  cases m <;> rfl

/-- The `result` field written by a successful move. -/
lemma updatedGame_result (game : Game) (input : MakeMoveInput) (now : Nat) :
    (updatedGame game input now).result =
      determineGameResult (game.board.set input.position.toNat (some input.player))
        input.player := rfl

/-- The `current_player` field written by a successful move: frozen at the
mover when the game just completed, otherwise flipped. -/
lemma updatedGame_current_player (game : Game) (input : MakeMoveInput) (now : Nat) :
    (updatedGame game input now).current_player =
      (if determineGameResult (game.board.set input.position.toNat (some input.player))
            input.player = GameResult.ongoing
       then (if input.player = Player.X then Player.O else Player.X)
       else input.player) := by
  cases hres : determineGameResult
      (game.board.set input.position.toNat (some input.player)) input.player <;>
    simp [updatedGame, hres]

/-- The `board` field written by a successful move. -/
lemma updatedGame_board (game : Game) (input : MakeMoveInput) (now : Nat) :
    (updatedGame game input now).board =
      game.board.set input.position.toNat (some input.player) := rfl

/-- The identifier, creation time and update time after a successful move. -/
lemma updatedGame_id_times (game : Game) (input : MakeMoveInput) (now : Nat) :
    (updatedGame game input now).id = game.id ∧
    (updatedGame game input now).created_at = game.created_at ∧
    (updatedGame game input now).updated_at = now := ⟨rfl, rfl, rfl⟩

/-- The code's "next player" expression is the other mover. -/
lemma next_eq_otherPlayer (pl : Player) :
    (if pl = Player.X then Player.O else Player.X) = otherPlayer pl := by
  cases pl <;> rfl

/-- Inversion: a successful `resolveMove` means the input passed the range
check, the game was found, all preconditions held, and the returned record
and table are the updated ones. -/
lemma resolveMove_ok_inv (store : Store) (input : MakeMoveInput) (now : Nat)
    (g' : Game) (store' : Store)
    (h : resolveMove store input now = (Except.ok g', store')) :
    ∃ game, storeGet store input.game_id = some game ∧
      moveInputInRange input = true ∧
      game.status ≠ GameStatus.completed ∧
      game.status ≠ GameStatus.waiting ∧
      game.current_player = input.player ∧
      tsGet game.board input.position = some none ∧
      g' = updatedGame game input now ∧
      store' = storePut store input.game_id (updatedGame game input now) := by
  unfold resolveMove makeMove at h
  split at h
  · rename_i hin
    split at h
    · simp at h
    · rename_i game hget
      split at h
      · simp at h
      · rename_i hc
        split at h
        · simp at h
        · rename_i hw
          split at h
          · simp at h
          · rename_i ht
            split at h
            · simp at h
            · rename_i he
              simp only [Prod.mk.injEq, Except.ok.injEq] at h
              exact ⟨game, hget, hin, hc, hw, not_not.mp ht, not_not.mp he,
                h.1.symm, h.2.symm⟩
  · simp at h

/-- Forward direction: when all preconditions hold, `resolveMove` succeeds
with the updated record and table. -/
lemma resolveMove_ok_eq (store : Store) (input : MakeMoveInput) (now : Nat)
    (game : Game)
    (hin : moveInputInRange input = true)
    (hget : storeGet store input.game_id = some game)
    (hc : game.status ≠ GameStatus.completed)
    (hw : game.status ≠ GameStatus.waiting)
    (ht : game.current_player = input.player)
    (he : tsGet game.board input.position = some none) :
    resolveMove store input now =
      (Except.ok (updatedGame game input now),
        storePut store input.game_id (updatedGame game input now)) := by
  unfold resolveMove makeMove
  simp [hin, hget, hc, hw, ht, he]

/-- Either the call leaves the table unchanged, or it succeeded and wrote
exactly the updated record. -/
lemma resolveMove_snd_cases (store : Store) (input : MakeMoveInput) (now : Nat) :
    (resolveMove store input now).2 = store ∨
    ∃ g', resolveMove store input now =
      (Except.ok g', storePut store input.game_id g') := by
  unfold resolveMove makeMove
  split
  · split
    · left; rfl
    · split
      · left; rfl
      · split
        · left; rfl
        · split
          · left; rfl
          · split
            · left; rfl
            · right; exact ⟨_, rfl⟩
  · left; rfl

/-! ### Claim theorems -/

/-- C1: For every in-progress game record, every mover equal to the record's
current player, and every empty position p in 0..8, the outcome computed by
`resolveMove` after placing the mover's mark is: the mover's win if and only
if at least one of the 8 fixed triples has all three cells equal to the
mover's mark on the updated board; otherwise DRAW if and only if every one
of the 9 cells of the updated board is non-empty; otherwise ONGOING. -/
theorem resolveMove_outcome_matches_spec
    (store : Store) (gid now : Nat) (game : Game) (mover : Player) (p : Nat)
    (hget : storeGet store gid = some game)
    (hlen : game.board.length = 9)
    (hst : game.status = GameStatus.in_progress)
    (hturn : game.current_player = mover)
    (hp : p < 9)
    (hemp : game.board.get? p = some none) :
    (resolveMove store ⟨gid, (p : Int), mover⟩ now).1 =
      Except.ok (updatedGame game ⟨gid, (p : Int), mover⟩ now) ∧
    (updatedGame game ⟨gid, (p : Int), mover⟩ now).result =
      specOutcome (game.board.set p (some mover)) mover := by
  have hin : moveInputInRange ⟨gid, (p : Int), mover⟩ = true := by
    simp only [moveInputInRange, Bool.and_eq_true, decide_eq_true_eq]
    omega
  have htg : tsGet game.board ((p : Nat) : Int) = some none := by
    simp only [tsGet, Int.toNat_natCast]
    rw [if_pos (Int.natCast_nonneg p)]
    exact hemp
  have hc : game.status ≠ GameStatus.completed := by rw [hst]; simp
  have hw : game.status ≠ GameStatus.waiting := by rw [hst]; simp
  have h := resolveMove_ok_eq store ⟨gid, (p : Int), mover⟩ now game hin hget hc hw
    hturn htg
  constructor
  · rw [h]
  · have hlen' : (game.board.set p (some mover)).length = 9 := by
      simp [hlen]
    have hres := updatedGame_result game ⟨gid, (p : Int), mover⟩ now
    simp only [Int.toNat_natCast] at hres
    rw [hres, determineGameResult_eq_specOutcome _ _ hlen']

/-- Witness for C1: X plays the empty centre of a fresh game. -/
theorem resolveMove_outcome_matches_spec_witness :
    (resolveMove [inProgressSample] ⟨1, ((4 : Nat) : Int), Player.X⟩ 7).1 =
      Except.ok (updatedGame inProgressSample ⟨1, ((4 : Nat) : Int), Player.X⟩ 7) ∧
    (updatedGame inProgressSample ⟨1, ((4 : Nat) : Int), Player.X⟩ 7).result =
      specOutcome (inProgressSample.board.set 4 (some Player.X)) Player.X :=
  resolveMove_outcome_matches_spec [inProgressSample] 1 7 inProgressSample Player.X 4
    rfl rfl rfl rfl (by decide) rfl

/-- C2: For every successful `resolveMove` call: if the computed outcome is
not ONGOING, the returned record's current player equals the mover who just
played (frozen); if the outcome is ONGOING, it is the other mover. -/
theorem resolveMove_turn_freeze_or_flip
    (store : Store) (input : MakeMoveInput) (now : Nat) (g' : Game) (store' : Store)
    (h : resolveMove store input now = (Except.ok g', store')) :
    (g'.result ≠ GameResult.ongoing → g'.current_player = input.player) ∧
    (g'.result = GameResult.ongoing → g'.current_player = otherPlayer input.player) := by
  obtain ⟨game, -, -, -, -, -, -, hg, -⟩ :=
    resolveMove_ok_inv store input now g' store' h
  subst hg
  constructor
  · intro hne
    rw [updatedGame_result] at hne
    rw [updatedGame_current_player, if_neg hne]
  · intro heq
    rw [updatedGame_result] at heq
    rw [updatedGame_current_player, if_pos heq, next_eq_otherPlayer]

/-- Witness for C2: after X's opening centre move the game is ongoing and it
is O's turn. -/
theorem resolveMove_turn_freeze_or_flip_witness :
    movedSample.current_player = otherPlayer sampleMove.player :=
  (resolveMove_turn_freeze_or_flip [inProgressSample] sampleMove 7 movedSample
    (storePut [inProgressSample] 1 movedSample) rfl).2 rfl

/-- C3: For every existing IN_PROGRESS record whose current player is the
mover, a position outside 0..8 makes `resolveMove` fail with
PositionOutOfRange (not PositionOccupied or any other kind), leaving the
stored table unchanged. -/
theorem resolveMove_out_of_range
    (store : Store) (input : MakeMoveInput) (now : Nat) (game : Game)
    (hget : storeGet store input.game_id = some game)
    (hst : game.status = GameStatus.in_progress)
    (hturn : game.current_player = input.player)
    (hout : input.position < 0 ∨ 8 < input.position) :
    resolveMove store input now =
      (Except.error MoveError.PositionOutOfRange, store) := by
  have hin : moveInputInRange input = false := by
    simp only [moveInputInRange, Bool.and_eq_false_iff, decide_eq_false_iff_not,
      not_le]
    omega
  simp [resolveMove, hin]

/-- Witness for C3: position 9 on a fresh game with X to move. -/
theorem resolveMove_out_of_range_witness :
    resolveMove [inProgressSample] ⟨1, 9, Player.X⟩ 0 =
      (Except.error MoveError.PositionOutOfRange, [inProgressSample]) :=
  resolveMove_out_of_range [inProgressSample] ⟨1, 9, Player.X⟩ 0 inProgressSample
    rfl rfl rfl (Or.inr (by decide))

/-- C4 counterexample: an existing COMPLETED record moved at the out-of-range
position 9 fails with PositionOutOfRange, not GameAlreadyCompleted — the
input-range validation runs before the handler fetches the game, so the
stated "GameAlreadyCompleted first" order does not hold for out-of-range
positions. -/
theorem completed_out_of_range_counterexample :
    completedSample.status = GameStatus.completed ∧
    storeGet [completedSample] 1 = some completedSample ∧
    (resolveMove [completedSample] ⟨1, 9, Player.O⟩ 5).1 =
      Except.error MoveError.PositionOutOfRange ∧
    (resolveMove [completedSample] ⟨1, 9, Player.O⟩ 5).1 ≠
      Except.error MoveError.GameAlreadyCompleted := by
  refine ⟨rfl, rfl, rfl, fun hcontra => ?_⟩
  exact MoveError.noConfusion (Except.error.inj hcontra)

/-- C4 (amended): For every existing COMPLETED record, `resolveMove` fails
with GameAlreadyCompleted for every in-range position 0..8 and every mover —
even when wrong-turn or occupied-cell preconditions are also violated —
leaving the stored table unchanged. -/
theorem resolveMove_completed_first
    (store : Store) (input : MakeMoveInput) (now : Nat) (game : Game)
    (hget : storeGet store input.game_id = some game)
    (hc : game.status = GameStatus.completed)
    (hin : 0 ≤ input.position ∧ input.position ≤ 8) :
    resolveMove store input now =
      (Except.error MoveError.GameAlreadyCompleted, store) := by
  have hrange : moveInputInRange input = true := by
    simp only [moveInputInRange, Bool.and_eq_true, decide_eq_true_eq]
    exact hin
  simp [resolveMove, makeMove, hrange, hget, hc]

/-- Witness for the amended C4: O moves on an occupied cell of a completed
game where it is not even O's turn; the failure is still
GameAlreadyCompleted. -/
theorem resolveMove_completed_first_witness :
    resolveMove [completedSample] ⟨1, 0, Player.O⟩ 3 =
      (Except.error MoveError.GameAlreadyCompleted, [completedSample]) :=
  resolveMove_completed_first [completedSample] ⟨1, 0, Player.O⟩ 3 completedSample
    rfl rfl (by decide)

/-- C5: Every `resolveMove` call that fails with any precondition error
(NotFound, GameAlreadyCompleted, GameNotStarted, WrongTurn,
PositionOutOfRange, PositionOccupied) leaves the stored table — hence every
field of the stored record, board and timestamps included — unchanged. -/
theorem resolveMove_error_preserves_store
    (store : Store) (input : MakeMoveInput) (now : Nat) (e : MoveError)
    (h : (resolveMove store input now).1 = Except.error e) :
    (resolveMove store input now).2 = store := by
  rcases resolveMove_snd_cases store input now with hsnd | ⟨g', hok⟩
  · exact hsnd
  · rw [hok] at h
    simp at h

/-- Witness for C5: a move on an absent game id fails with NotFound and the
(empty) table is untouched. -/
theorem resolveMove_error_preserves_store_witness :
    (resolveMove [] ⟨2, 4, Player.X⟩ 0).2 = ([] : Store) :=
  resolveMove_error_preserves_store [] ⟨2, 4, Player.X⟩ 0 (MoveError.NotFound 2) rfl

/-- C10: the outcome classification depends only on the mover's own marks —
for every board (corrupt ones included) and mover, the computed result is
never the opposing mover's win: it is the mover's win, DRAW, or ONGOING. -/
theorem determineGameResult_never_opponent_win (b : Board) (m : Player) :
    determineGameResult b m ≠ moverWin (otherPlayer m) ∧
    (determineGameResult b m = moverWin m ∨
     determineGameResult b m = GameResult.draw ∨
     determineGameResult b m = GameResult.ongoing) := by
  cases m <;> unfold determineGameResult <;> split <;>
    simp [moverWin, otherPlayer] <;> split <;> simp

/-- C6: Every record produced by `createGame`, a successful `resolveMove`,
or `resetGame` satisfies both invariants: `winner` is present iff the
outcome is a win (naming the corresponding mover), and the status is
COMPLETED iff the outcome is not ONGOING. -/
theorem produced_records_satisfy_invariant :
    (∀ (store : Store) (newId now : Nat),
      recordInvariant (createGame store newId now).1) ∧
    (∀ (store : Store) (input : MakeMoveInput) (now : Nat) (g' : Game)
      (store' : Store),
      resolveMove store input now = (Except.ok g', store') →
      recordInvariant g') ∧
    (∀ (store : Store) (gid now : Nat) (g' : Game) (store' : Store),
      resetGame store gid now = (Except.ok g', store') →
      recordInvariant g') := by
  refine ⟨?_, ?_, ?_⟩
  · intro store newId now
    simp [recordInvariant, createGame, initialGame]
  · intro store input now g' store' h
    obtain ⟨game, -, -, -, -, -, -, hg, -⟩ :=
      resolveMove_ok_inv store input now g' store' h
    subst hg
    rcases hres : determineGameResult
        (game.board.set input.position.toNat (some input.player))
        input.player <;>
      simp [recordInvariant, updatedGame, hres]
  · intro store gid now g' store' h
    unfold resetGame at h
    cases hget : storeGet store gid with
    | none => rw [hget] at h; simp at h
    | some game =>
      rw [hget] at h
      simp only [Prod.mk.injEq, Except.ok.injEq] at h
      obtain ⟨hg, -⟩ := h
      subst hg
      simp [recordInvariant, resetRecord]

/-- Witness for C6: the invariant holds for a freshly created game, for the
record after X's opening centre move, and for a reset completed game. -/
theorem produced_records_satisfy_invariant_witness :
    recordInvariant (createGame ([] : Store) 1 0).1 ∧
    recordInvariant movedSample ∧
    recordInvariant (resetRecord completedSample 9) :=
  ⟨produced_records_satisfy_invariant.1 [] 1 0,
   produced_records_satisfy_invariant.2.1 [inProgressSample] sampleMove 7
     movedSample (storePut [inProgressSample] 1 movedSample) rfl,
   produced_records_satisfy_invariant.2.2 [completedSample] 1 9
     (resetRecord completedSample 9)
     (storePut [completedSample] 1 (resetRecord completedSample 9)) rfl⟩

/-- C7: For every successful `resolveMove` at position p, exactly one board
cell changes — cell p goes from EMPTY to the mover's mark, every other cell
is unchanged — the identifier and `created_at` are unchanged, and
`updated_at` is refreshed to the time of the call. (In this functional
embedding the input record is never mutated: a new record value is built.) -/
theorem resolveMove_changes_one_cell
    (store : Store) (input : MakeMoveInput) (now : Nat) (game g' : Game)
    (store' : Store)
    (hget : storeGet store input.game_id = some game)
    (h : resolveMove store input now = (Except.ok g', store')) :
    tsGet game.board input.position = some none ∧
    g'.board.get? input.position.toNat = some (some input.player) ∧
    (∀ q, q ≠ input.position.toNat → g'.board.get? q = game.board.get? q) ∧
    g'.id = game.id ∧
    g'.created_at = game.created_at ∧
    g'.updated_at = now := by
  obtain ⟨game2, hget2, -, -, -, -, he, hg, -⟩ :=
    resolveMove_ok_inv store input now g' store' h
  rw [hget] at hget2
  injection hget2 with hgg
  subst hgg
  subst hg
  have he' : game.board.get? input.position.toNat = some none := by
    unfold tsGet at he
    split at he
    · exact he
    · simp at he
  have hlt : input.position.toNat < game.board.length :=
    (List.get?_eq_some.mp he').1
  refine ⟨he, ?_, ?_, rfl, rfl, rfl⟩
  · rw [updatedGame_board]
    exact List.get?_set_eq_of_lt _ hlt
  · intro q hq
    rw [updatedGame_board]
    exact List.get?_set_ne _ _ (Ne.symm hq)

/-- Witness for C7: X's centre move fills cell 4, leaves cell 0 alone, and
keeps the identifier and creation time while refreshing the update time. -/
theorem resolveMove_changes_one_cell_witness :
    movedSample.board.get? 4 = some (some Player.X) ∧
    movedSample.board.get? 0 = inProgressSample.board.get? 0 ∧
    movedSample.id = inProgressSample.id ∧
    movedSample.created_at = inProgressSample.created_at ∧
    movedSample.updated_at = 7 := by
  have h := resolveMove_changes_one_cell [inProgressSample] sampleMove 7
    inProgressSample movedSample (storePut [inProgressSample] 1 movedSample)
    rfl rfl
  exact ⟨h.2.1, h.2.2.1 0 (by decide), h.2.2.2.1, h.2.2.2.2.1, h.2.2.2.2.2⟩

/-- C8: For every existing record, whatever its status or contents,
`resetGame` succeeds and yields a record with an all-EMPTY board, X to move,
IN_PROGRESS, ONGOING, no winner, the same identifier and `created_at`, and a
refreshed (different) `updated_at`. -/
theorem resetGame_restores_initial_state
    (store : Store) (gid now : Nat) (game : Game)
    (hget : storeGet store gid = some game)
    (hfresh : game.updated_at < now) :
    resetGame store gid now =
      (Except.ok (resetRecord game now), storePut store gid (resetRecord game now)) ∧
    (resetRecord game now).board = List.replicate 9 none ∧
    (resetRecord game now).current_player = Player.X ∧
    (resetRecord game now).status = GameStatus.in_progress ∧
    (resetRecord game now).result = GameResult.ongoing ∧
    (resetRecord game now).winner = none ∧
    (resetRecord game now).id = game.id ∧
    (resetRecord game now).created_at = game.created_at ∧
    (resetRecord game now).updated_at = now ∧
    (resetRecord game now).updated_at ≠ game.updated_at := by
  refine ⟨?_, rfl, rfl, rfl, rfl, rfl, rfl, rfl, rfl, ?_⟩
  · unfold resetGame
    rw [hget]
  · show now ≠ game.updated_at
    omega

/-- Witness for C8: resetting the completed sample game at a later time. -/
theorem resetGame_restores_initial_state_witness :
    resetGame [completedSample] 1 9 =
      (Except.ok (resetRecord completedSample 9),
        storePut [completedSample] 1 (resetRecord completedSample 9)) ∧
    (resetRecord completedSample 9).board = List.replicate 9 none ∧
    (resetRecord completedSample 9).current_player = Player.X ∧
    (resetRecord completedSample 9).status = GameStatus.in_progress ∧
    (resetRecord completedSample 9).result = GameResult.ongoing ∧
    (resetRecord completedSample 9).winner = none ∧
    (resetRecord completedSample 9).id = completedSample.id ∧
    (resetRecord completedSample 9).created_at = completedSample.created_at ∧
    (resetRecord completedSample 9).updated_at = 9 ∧
    (resetRecord completedSample 9).updated_at ≠ completedSample.updated_at :=
  resetGame_restores_initial_state [completedSample] 1 9 completedSample rfl
    (by decide)

/-- C9: For every identifier with no record in the store, the read-only
lookup `getGame` returns an absent result rather than an error; for every
identifier present (the store holding at most one record per identifier),
it returns the stored record. -/
theorem getGame_absent_or_stored (store : Store) (gid : Nat) :
    ((∀ g, g ∈ store → g.id ≠ gid) → getGame store gid = none) ∧
    ((store.Pairwise fun a b => a.id ≠ b.id) →
      ∀ g, g ∈ store → g.id = gid → getGame store gid = some g) := by
  induction store with
  | nil =>
    refine ⟨fun _ => rfl, fun _ g hg => ?_⟩
    simp at hg
  | cons a tl ih =>
    constructor
    · intro habs
      have hpa : ¬((a.id == gid) = true) := by
        simp only [beq_iff_eq]
        exact habs a (List.mem_cons_self a tl)
      have h1 : getGame (a :: tl) gid = getGame tl gid := by
        simp only [getGame, List.filter_cons]
        rw [if_neg hpa]
      rw [h1]
      exact ih.1 fun g hg => habs g (List.mem_cons_of_mem a hg)
    · intro hpw g hg heq
      rcases List.mem_cons.mp hg with rfl | hgtl
      · have hpa : (g.id == gid) = true := by
          simp only [beq_iff_eq]
          exact heq
        simp only [getGame, List.filter_cons]
        rw [if_pos hpa]
      · have hane : a.id ≠ gid := by
          have hne := (List.pairwise_cons.mp hpw).1 g hgtl
          rw [heq] at hne
          exact hne
        have h1 : getGame (a :: tl) gid = getGame tl gid := by
          simp only [getGame, List.filter_cons]
          rw [if_neg (by simp only [beq_iff_eq]; exact hane)]
        rw [h1]
        exact ih.2 (List.pairwise_cons.mp hpw).2 g hgtl heq

/-- Witness for C9: lookup misses on the empty store and hits the stored
sample record. -/
theorem getGame_absent_or_stored_witness :
    getGame ([] : Store) 5 = none ∧
    getGame [inProgressSample] 1 = some inProgressSample :=
  ⟨(getGame_absent_or_stored [] 5).1 (by intro g hg; simp at hg),
   (getGame_absent_or_stored [inProgressSample] 1).2 (by simp)
     inProgressSample (by simp) rfl⟩

end TicTacToe
